import Mathlib

/-!
Shallow embedding of the `eval_agent` evaluation harness
(registry, task execution, classification metrics, generation metrics),
with theorems checking the specification's claims against the code.

Sources embedded:
- `src/eval_agent/types.py` (data model)
- `src/eval_agent/registry.py` (`Registry.create`)
- `src/eval_agent/models/base.py` (`ModelAdapter.predict_batch` default)
- `src/eval_agent/tasks/retrieval.py` (`RetrievalQuestionAnsweringTask.run`)
- `src/eval_agent/metrics/classification.py`
- `src/eval_agent/metrics/generation.py`

Python values that flow through the metrics (`expected_output`, `output`)
are modelled by `PyVal`: enough of Python's value universe (strings and
ints) to express both Python `==` and `str(...)`, which the code mixes.
Floats returned by the metrics are modelled exactly: by `ℚ` where the
code only does field arithmetic on ratios of counts, and by `ℝ` where
`math.exp`/`math.log` are involved (BLEU).
-/

namespace EvalAgent

/-- A Python value appearing as an expected or predicted output.
Strings and integers suffice to model the interaction between
Python `==` and `str(...)` used by the metrics. -/
inductive PyVal where
  | pstr (s : String)
  | pint (n : Int)
  deriving DecidableEq, Repr

/-- Python `str(...)` on a `PyVal`. -/
def PyVal.toStr : PyVal → String
  | .pstr s => s
  | .pint n => toString n

/-- Python `==` on `PyVal`s: values of different types compare unequal. -/
def PyVal.pyEq : PyVal → PyVal → Bool
  | .pstr s, .pstr t => s == t
  | .pint m, .pint n => m == n
  | _, _ => false

/-- `types.Example`: one evaluation unit (`uid`, `inputs`,
`expected_output`, `metadata`). -/
structure Example where
  uid : String
  inputs : List (String × PyVal)
  expected_output : PyVal
  metadata : List (String × PyVal)
  deriving DecidableEq, Repr

/-- `types.ModelResponse`: output of a model adapter for one example. -/
structure ModelResponse where
  uid : String
  output : PyVal
  metadata : List (String × PyVal)
  deriving DecidableEq, Repr

/-- `types.MetricResult`, parameterized by the type of `value`
(rationals for exact metrics, reals for BLEU) and by the shape of
the `details` mapping of the particular metric. -/
structure MetricResult (α : Type) (δ : Type) where
  name : String
  value : α
  details : δ
  deriving DecidableEq, Repr

/-! ## Helpers: Python primitives

Python's string comparison (used by `sorted`) is code-point
lexicographic; Python `dict` assignment keeps the position of an
existing key; `", ".join` interleaves a separator.  These are modelled
by structurally recursive functions so that concrete runs reduce. -/

/-- Code-point lexicographic comparison of character lists,
as Python compares strings. -/
def charListLe : List Char → List Char → Bool
  | [], _ => true
  | _ :: _, [] => false
  | a :: as, b :: bs => if a = b then charListLe as bs else decide (a < b)

/-- Python `<=` on strings (code-point lexicographic). -/
def strLe (a b : String) : Bool :=
  charListLe a.toList b.toList

/-- Insert a string into a list sorted by `strLe`, keeping it sorted. -/
def insertSorted (a : String) : List String → List String
  | [] => [a]
  | b :: bs => if strLe a b then a :: b :: bs else b :: insertSorted a bs

/-- Python `sorted(...)` on strings (insertion sort by `strLe`). -/
def sortStrings : List String → List String
  | [] => []
  | a :: as => insertSorted a (sortStrings as)

/-- Python `sep.join(parts)`. -/
def joinSep (sep : String) : List String → String
  | [] => ""
  | [x] => x
  | x :: xs => x ++ sep ++ joinSep sep xs

/-- Python `d[k] = v` on a dict represented as an association list:
an existing key keeps its position, a new key is appended. -/
def dictInsert (d : List (String × α)) (k : String) (v : α) : List (String × α) :=
  match d with
  | [] => [(k, v)]
  | (k2, v2) :: rest => if k2 = k then (k2, v) :: rest else (k2, v2) :: dictInsert rest k v

/-! ## `registry.py` -/

/-- `registry.Registry`: a name→constructor table for one capability
category.  A constructor is modelled as a function from its (bundled)
arguments `σ` to the built instance `ω`; `items` is the underlying
insertion-ordered dict. -/
structure Registry (σ ω : Type) where
  name : String
  items : List (String × (σ → ω))

/-- The message of the `KeyError` raised by `Registry.create` /
`Registry.get` for an unknown key:
`f"Unknown entry '{key}' for registry '{name}'. Available: {available}."`
with `available = ", ".join(sorted(items)) or "<empty>"`. -/
def unknownEntryMessage (name : String) (keys : List String) (key : String) : String :=
  let available := joinSep ", " (sortStrings keys)
  "Unknown entry '" ++ key ++ "' for registry '" ++ name ++ "'. Available: " ++
    (if available = "" then "<empty>" else available) ++ "."

/-- `Registry.create`: look the key up; on a hit, construct the instance
by forwarding the arguments verbatim to the registered constructor; on a
miss, fail with the unknown-entry `KeyError`. -/
def Registry.create (r : Registry σ ω) (key : String) (args : σ) : Except String ω :=
  match r.items.lookup key with
  | some cls => .ok (cls args)
  | none => .error (unknownEntryMessage r.name (r.items.map Prod.fst) key)

/-! ## `models/base.py` and `tasks/retrieval.py` -/

/-- `models.base.ModelAdapter`, restricted to the members the task layer
uses: `predict`, `predict_batch` and the optional integer `batch_size`
attribute read via `getattr(self.model, "batch_size", None)`. -/
structure ModelAdapter where
  predict : Example → ModelResponse
  predict_batch : List Example → List ModelResponse
  batch_size : Option Int

/-- The default `ModelAdapter.predict_batch`:
`[self.predict(example) for example in examples]`. -/
def defaultPredictBatch (predict : Example → ModelResponse) :
    List Example → List ModelResponse :=
  fun examples => examples.map predict

/-- The batch-accumulation loop of `RetrievalQuestionAnsweringTask.run`:
append each example to `batch`, flush through `predict_batch` whenever
`len(batch) >= batch_size`, and flush the final partial batch. -/
def runBatches (predict_batch : List Example → List ModelResponse) (batch_size : Int) :
    List Example → List Example → List ModelResponse
  | batch, [] => if batch.isEmpty then [] else predict_batch batch
  | batch, e :: rest =>
      let b := batch ++ [e]
      if (b.length : Int) ≥ batch_size then
        predict_batch b ++ runBatches predict_batch batch_size [] rest
      else
        runBatches predict_batch batch_size b rest

/-- `RetrievalQuestionAnsweringTask.run`: sequential prediction unless the
model exposes an integer `batch_size` greater than 1, in which case the
dataset is driven through `predict_batch` in fixed-size batches. -/
def RetrievalQuestionAnsweringTask.run (model : ModelAdapter)
    (dataset : List Example) : List ModelResponse :=
  match model.batch_size with
  | none => dataset.map model.predict
  | some batch_size =>
      if batch_size ≤ 1 then dataset.map model.predict
      else runBatches model.predict_batch batch_size [] dataset

/-! ## `metrics/classification.py` -/

/-- The `(str(example.expected_output), str(response.output))` pairs the
loop of `_gather_classification_stats` iterates over; `zip` silently
truncates to the shorter argument. -/
def goldPredPairs (examples : List Example) (responses : List ModelResponse) :
    List (String × String) :=
  (examples.zip responses).map (fun p => (p.1.expected_output.toStr, p.2.output.toStr))

/-- The `labels_set` accumulated by `_gather_classification_stats`: the
set of all observed gold and predicted labels, as a duplicate-free list. -/
def labelsSet (pairs : List (String × String)) : List String :=
  (pairs.flatMap (fun p => [p.1, p.2])).dedup

/-- `labels = sorted(labels_set)`. -/
def labels (pairs : List (String × String)) : List String :=
  sortStrings (labelsSet pairs)

/-- `tp[label]` of `_gather_classification_stats`: `tp[gold]` is
incremented exactly when `gold == pred`. -/
def tpCount (pairs : List (String × String)) (label : String) : Nat :=
  pairs.countP (fun p => p.1 == label && p.1 == p.2)

/-- `fp[label]`: `fp[pred]` is incremented exactly when `gold != pred`. -/
def fpCount (pairs : List (String × String)) (label : String) : Nat :=
  pairs.countP (fun p => p.2 == label && p.1 != p.2)

/-- `fn[label]`: `fn[gold]` is incremented exactly when `gold != pred`. -/
def fnCount (pairs : List (String × String)) (label : String) : Nat :=
  pairs.countP (fun p => p.1 == label && p.1 != p.2)

/-- `support[label]`: incremented for every pair whose gold is `label`. -/
def supportCount (pairs : List (String × String)) (label : String) : Nat :=
  pairs.countP (fun p => p.1 == label)

/-- `confusion[gold][pred]` of `_gather_classification_stats`. -/
def confusionCount (pairs : List (String × String)) (gold pred : String) : Nat :=
  pairs.countP (fun q => q.1 == gold && q.2 == pred)

/-- The `totals` dict of `_gather_classification_stats`:
`{"tp": sum(tp.values()), "fp": sum(fp.values()), "fn": sum(fn.values())}`.
Every key of the `tp`/`fp`/`fn` defaultdicts is an observed label, and a
label outside a dict contributes count 0, so each sum over dict values is
written as the sum over the observed label list. -/
structure Totals where
  tp : Nat
  fp : Nat
  fn : Nat
  deriving DecidableEq, Repr

/-- Build the `totals` dict from the gathered stats. -/
def mkTotals (pairs : List (String × String)) : Totals :=
  { tp := ((labels pairs).map (tpCount pairs)).sum
    fp := ((labels pairs).map (fpCount pairs)).sum
    fn := ((labels pairs).map (fnCount pairs)).sum }

/-- `_safe_div`: `numerator / denominator if denominator else 0.0`. -/
def safeDiv (numerator denominator : ℚ) : ℚ :=
  if denominator ≠ 0 then numerator / denominator else 0

/-- `_aggregate_scores`: combine per-label scores according to the
`average` mode; a `ValueError` is modelled as `Except.error` carrying
the message. -/
def aggregateScores (per_label : List (String × ℚ)) (support : String → Nat)
    (average : String) (totals : Totals) (score : String) : Except String ℚ :=
  let lbls := per_label.map Prod.fst
  if lbls.isEmpty then .ok 0
  else if average = "macro" then
    .ok ((lbls.map (fun l => (per_label.lookup l).getD 0)).sum / (lbls.length : ℚ))
  else if average = "weighted" then
    let total_support := (lbls.map (fun l => support l)).sum
    if total_support = 0 then .ok 0
    else
      .ok ((lbls.map (fun l => ((per_label.lookup l).getD 0) * (support l : ℚ))).sum /
        (total_support : ℚ))
  else if average = "micro" then
    let tp : ℚ := totals.tp
    let fp : ℚ := totals.fp
    let fn : ℚ := totals.fn
    if score = "precision" then .ok (safeDiv tp (tp + fp))
    else if score = "recall" then .ok (safeDiv tp (tp + fn))
    else if score = "f1" then
      let precision_micro := safeDiv tp (tp + fp)
      let recall_micro := safeDiv tp (tp + fn)
      if precision_micro + recall_micro = 0 then .ok 0
      else .ok (2 * precision_micro * recall_micro / (precision_micro + recall_micro))
    else .error ("Unsupported score '" ++ score ++ "' for micro average")
  else
    .error ("Unsupported average '" ++ average ++
      "'. Use 'macro', 'weighted', or 'micro'.")

/-- The `details` dict `{"correct": correct, "total": total}` of
`AccuracyMetric.compute`. -/
structure AccuracyDetails where
  correct : Nat
  total : Nat
  deriving DecidableEq, Repr

/-- The `for example, response in zip(examples, responses)` loop of
`AccuracyMetric.compute`, accumulating `correct`. -/
def accuracyLoop : List (Example × ModelResponse) → Nat
  | [] => 0
  | p :: rest => (if p.1.expected_output.pyEq p.2.output then 1 else 0) + accuracyLoop rest

/-- `AccuracyMetric.compute`: `correct / total` with `total = len(responses)`,
`0.0` when `total == 0`; details `{"correct", "total"}`.  Note that the
loop compares the raw values with Python `==`, not their stringifications. -/
def AccuracyMetric.compute (name : String) (examples : List Example)
    (responses : List ModelResponse) : MetricResult ℚ AccuracyDetails :=
  let correct := accuracyLoop (examples.zip responses)
  let total := responses.length
  let value : ℚ := if total ≠ 0 then (correct : ℚ) / (total : ℚ) else 0
  { name := name, value := value, details := { correct := correct, total := total } }

/-- The per-label dict `{label: _safe_div(tp[label], tp[label] + fp[label])}`
of `PrecisionMetric.compute`. -/
def precisionPerLabel (pairs : List (String × String)) : List (String × ℚ) :=
  (labels pairs).map (fun l =>
    (l, safeDiv (tpCount pairs l) (tpCount pairs l + fpCount pairs l)))

/-- The per-label dict of `RecallMetric.compute`. -/
def recallPerLabel (pairs : List (String × String)) : List (String × ℚ) :=
  (labels pairs).map (fun l =>
    (l, safeDiv (tpCount pairs l) (tpCount pairs l + fnCount pairs l)))

/-- The per-label dict of `F1ScoreMetric.compute`: the harmonic mean of the
per-label precision and recall, `0.0` when both vanish. -/
def f1PerLabel (pairs : List (String × String)) : List (String × ℚ) :=
  (labels pairs).map (fun l =>
    let precision := safeDiv (tpCount pairs l) (tpCount pairs l + fpCount pairs l)
    let recall_score := safeDiv (tpCount pairs l) (tpCount pairs l + fnCount pairs l)
    (l, if precision + recall_score = 0 then 0
      else 2 * precision * recall_score / (precision + recall_score)))

/-- The `value` computed by `PrecisionMetric.compute` (an `average` mode is
configuration set at construction time). -/
def PrecisionMetric.value (average : String) (examples : List Example)
    (responses : List ModelResponse) : Except String ℚ :=
  let pairs := goldPredPairs examples responses
  aggregateScores (precisionPerLabel pairs) (supportCount pairs) average (mkTotals pairs)
    "precision"

/-- The `value` computed by `RecallMetric.compute`. -/
def RecallMetric.value (average : String) (examples : List Example)
    (responses : List ModelResponse) : Except String ℚ :=
  let pairs := goldPredPairs examples responses
  aggregateScores (recallPerLabel pairs) (supportCount pairs) average (mkTotals pairs)
    "recall"

/-- The `value` computed by `F1ScoreMetric.compute`. -/
def F1ScoreMetric.value (average : String) (examples : List Example)
    (responses : List ModelResponse) : Except String ℚ :=
  let pairs := goldPredPairs examples responses
  aggregateScores (f1PerLabel pairs) (supportCount pairs) average (mkTotals pairs) "f1"

/-- The `matrix` built by `ConfusionMatrixMetric.compute`: rows and columns
both indexed by the sorted label list. -/
def ConfusionMatrixMetric.matrix (examples : List Example)
    (responses : List ModelResponse) : List (List Nat) :=
  let pairs := goldPredPairs examples responses
  (labels pairs).map (fun gold => (labels pairs).map (fun pred =>
    confusionCount pairs gold pred))

/-- `ConfusionMatrixMetric.compute`: constant `value = 1.0`, the real
output being `details = {"labels", "matrix"}`. -/
def ConfusionMatrixMetric.compute (name : String) (examples : List Example)
    (responses : List ModelResponse) :
    MetricResult ℚ (List String × List (List Nat)) :=
  { name := name, value := 1,
    details := (labels (goldPredPairs examples responses),
      ConfusionMatrixMetric.matrix examples responses) }

/-- Sum of the main-diagonal entries of a matrix given as rows, starting
at column `i`: `m[0][i] + m[1][i+1] + ...`. -/
def diagSumFrom : Nat → List (List Nat) → Nat
  | _, [] => 0
  | i, row :: rest => row.getD i 0 + diagSumFrom (i + 1) rest

/-- Sum of the main-diagonal entries of a matrix given as rows:
`m[0][0] + m[1][1] + ...`. -/
def diagSum (m : List (List Nat)) : Nat :=
  diagSumFrom 0 m

/-! ## `metrics/generation.py` -/

/-- Whitespace splitting of a character list: split at every whitespace
character, producing (possibly empty) segments. -/
def splitWs : List Char → List (List Char)
  | [] => [[]]
  | c :: cs =>
      if c.isWhitespace then [] :: splitWs cs
      else
        match splitWs cs with
        | [] => [[c]]
        | t :: ts => (c :: t) :: ts

/-- `_tokenize`: `[token for token in text.lower().split() if token]` —
lowercase, split on whitespace, drop empty tokens. -/
def tokenize (text : String) : List String :=
  ((splitWs (text.toList.map Char.toLower)).map (fun cs => String.mk cs)).filter
    (fun t => t ≠ "")

/-- `_lcs_length`: the longest-common-subsequence length that the
`lengths` dynamic-programming table of the source computes; its defining
recurrence (match the heads, or drop one head and take the max). -/
def lcsLength : List String → List String → Nat
  | [], _ => 0
  | _ :: _, [] => 0
  | r :: rs, h :: hs =>
      if r = h then lcsLength rs hs + 1
      else max (lcsLength rs (h :: hs)) (lcsLength (r :: rs) hs)
termination_by a b => a.length + b.length

/-- The per-example ROUGE-L F1 score of `RougeLMetric.compute`. -/
def rougePerExample (ex : Example) (response : ModelResponse) : ℚ :=
  let reference_tokens := tokenize ex.expected_output.toStr
  let hypothesis_tokens := tokenize response.output.toStr
  if reference_tokens.isEmpty && hypothesis_tokens.isEmpty then 1
  else
    let lcs := lcsLength reference_tokens hypothesis_tokens
    let precision : ℚ :=
      if ¬hypothesis_tokens.isEmpty then (lcs : ℚ) / (hypothesis_tokens.length : ℚ) else 0
    let recall_score : ℚ :=
      if ¬reference_tokens.isEmpty then (lcs : ℚ) / (reference_tokens.length : ℚ) else 0
    if precision + recall_score > 0 then
      2 * precision * recall_score / (precision + recall_score)
    else 0

/-- The `per_example` dict built by the generation metrics:
`per_example[example.uid] = score` over `zip(examples, responses)`. -/
def perExampleDict (score : Example → ModelResponse → α) (examples : List Example)
    (responses : List ModelResponse) : List (String × α) :=
  (examples.zip responses).foldl (fun d p => dictInsert d p.1.uid (score p.1 p.2)) []

/-- `sum(per_example.values()) / len(per_example) if per_example else 0.0`. -/
def meanValue [DivisionRing α] (per_example : List (String × α)) : α :=
  if ¬per_example.isEmpty then
    (per_example.map Prod.snd).sum / (per_example.length : α)
  else 0

/-- The `value` of `RougeLMetric.compute`: the mean per-example ROUGE-L F1. -/
def RougeLMetric.value (examples : List Example) (responses : List ModelResponse) : ℚ :=
  meanValue (perExampleDict rougePerExample examples responses)

/-- The contiguous `n`-grams of a token list, in order; empty when the
list has fewer than `n` tokens (Python's `range(len(candidate) - n + 1)`
is then empty). -/
def ngrams (tokens : List String) (n : Nat) : List (List String) :=
  if tokens.length < n then []
  else (List.range (tokens.length - n + 1)).map (fun i => (tokens.drop i).take n)

/-- `sum(clipped.values())` of `_modified_precision`: for each distinct
candidate `n`-gram, its candidate count clipped by its reference count. -/
def clippedNumerator (candidate_ngrams reference_ngrams : List (List String)) : Nat :=
  (candidate_ngrams.dedup.map (fun g =>
    min (candidate_ngrams.count g) (reference_ngrams.count g))).sum

/-- `_modified_precision`: `0.0` when the candidate has fewer than `n`
tokens or no `n`-grams; otherwise clipped matches over candidate
`n`-gram count. -/
def modifiedPrecision (candidate reference : List String) (n : Nat) : ℚ :=
  if candidate.length < n then 0
  else
    let candidate_ngrams := ngrams candidate n
    let reference_ngrams := ngrams reference n
    let numerator := clippedNumerator candidate_ngrams reference_ngrams
    let denominator := candidate_ngrams.length
    if denominator = 0 then 0 else (numerator : ℚ) / (denominator : ℚ)

/-- `_brevity_penalty`. -/
noncomputable def brevityPenalty (candidate_len reference_len : Nat) : ℝ :=
  if candidate_len = 0 then 0
  else if reference_len = 0 ∨ candidate_len > reference_len then 1
  else Real.exp (1 - (reference_len : ℝ) / (candidate_len : ℝ))

/-- The `precisions` list of `BleuMetric.compute`: for `n = 1..max_n`,
the modified `n`-gram precision, replaced by the smoothing constant when
it is `<= 0`. -/
def bleuPrecisions (max_n : Nat) (smoothing : ℚ) (candidate reference : List String) :
    List ℚ :=
  (List.range max_n).map (fun i =>
    let precision := modifiedPrecision candidate reference (i + 1)
    if precision ≤ 0 then smoothing else precision)

/-- The per-example BLEU score of `BleuMetric.compute` on token lists:
`0.0` for an empty candidate, otherwise
`bp * exp(sum(log(p) for p in precisions) / len(precisions))`. -/
noncomputable def bleuScoreOfTokens (max_n : Nat) (smoothing : ℚ) (candidate reference : List String) :
    ℝ :=
  if candidate.isEmpty then 0
  else
    let precisions := bleuPrecisions max_n smoothing candidate reference
    let geo_mean : ℝ :=
      Real.exp (((precisions.map (fun (p : ℚ) => Real.log (p : ℝ))).sum) /
        (precisions.length : ℝ))
    brevityPenalty candidate.length reference.length * geo_mean

/-- The per-example BLEU score on an (example, response) pair. -/
noncomputable def bleuPerExample (max_n : Nat) (smoothing : ℚ) (ex : Example)
    (response : ModelResponse) : ℝ :=
  bleuScoreOfTokens max_n smoothing (tokenize response.output.toStr)
    (tokenize ex.expected_output.toStr)

/-- The `value` of `BleuMetric.compute` for a metric constructed with the
given parameters; `__init__` clamps `self.max_n = max(1, max_n)`. -/
noncomputable def BleuMetric.value (max_n : Nat) (smoothing : ℚ) (examples : List Example)
    (responses : List ModelResponse) : ℝ :=
  meanValue (perExampleDict (bleuPerExample (max 1 max_n) smoothing) examples responses)

/-! ## Definitions following the specification's words (for refinement
comparisons; each is compared against the code-derived definition above) -/

/-- The geometric mean as the specification phrases it: the `n`-th root
(real power `1/n`) of the product of the `n` values. -/
noncomputable def specGeoMean (ps : List ℚ) : ℝ :=
  ((ps.map (fun (p : ℚ) => (p : ℝ))).prod) ^ ((ps.length : ℝ)⁻¹)

/-- The brevity penalty as the specification phrases it: `1.0` when
candidate length ≥ reference length or the reference length is 0, and
`exp(1 − reference_len/candidate_len)` otherwise. -/
noncomputable def specBrevityPenalty (candidate_len reference_len : Nat) : ℝ :=
  if reference_len ≤ candidate_len ∨ reference_len = 0 then 1
  else Real.exp (1 - (reference_len : ℝ) / (candidate_len : ℝ))

/-! ## Concrete fixtures used by witnesses and counterexamples -/

/-- An example expecting the string label `"yes"`. -/
def exYes : Example :=
  { uid := "1", inputs := [("text", .pstr "q")], expected_output := .pstr "yes",
    metadata := [] }

/-- A response predicting the string label `"yes"`. -/
def respYes : ModelResponse :=
  { uid := "1", output := .pstr "yes", metadata := [] }

/-- A response predicting the string label `"no"`. -/
def respNo : ModelResponse :=
  { uid := "1", output := .pstr "no", metadata := [] }

/-- An example whose expected output is the integer `1`. -/
def exIntOne : Example :=
  { uid := "1", inputs := [], expected_output := .pint 1, metadata := [] }

/-- A response whose output is the string `"1"`. -/
def respStrOne : ModelResponse :=
  { uid := "1", output := .pstr "1", metadata := [] }

/-- An example whose expected output is the text `"the cat sat"`. -/
def exCat : Example :=
  { uid := "1", inputs := [], expected_output := .pstr "the cat sat", metadata := [] }

/-- A response whose output is the text `"the cat sat"`. -/
def respCat : ModelResponse :=
  { uid := "1", output := .pstr "the cat sat", metadata := [] }

/-- A concrete two-entry registry used by the C8 witness. -/
def regDemo : Registry Nat Nat :=
  { name := "metric", items := [("b", fun n => n + 1), ("a", fun n => n * 2)] }

/-- A concrete predictor echoing the expected output. -/
def echoPredict : Example → ModelResponse :=
  fun ex => { uid := ex.uid, output := ex.expected_output, metadata := [] }

/-- A concrete adapter with `batch_size = 2` that keeps the default
`predict_batch`. -/
def echoAdapter : ModelAdapter :=
  { predict := echoPredict, predict_batch := defaultPredictBatch echoPredict,
    batch_size := some 2 }

/-! ## General lemmas about the helpers -/

theorem insertSorted_perm (a : String) (l : List String) :
    (insertSorted a l).Perm (a :: l) := by
  induction l with
  | nil => rfl
  | cons b bs ih =>
      rw [insertSorted]
      by_cases h : strLe a b
      · simp [h]
      · simp only [h, if_false, Bool.false_eq_true]
        exact (ih.cons b).trans (List.Perm.swap a b bs)

theorem sortStrings_perm (l : List String) : (sortStrings l).Perm l := by
  induction l with
  | nil => rfl
  | cons a as ih => exact (insertSorted_perm a (sortStrings as)).trans (ih.cons a)

theorem mem_sortStrings {a : String} {l : List String} : a ∈ sortStrings l ↔ a ∈ l :=
  (sortStrings_perm l).mem_iff

theorem sortStrings_nodup {l : List String} (h : l.Nodup) : (sortStrings l).Nodup :=
  ((sortStrings_perm l).nodup_iff).mpr h

theorem labels_nodup (pairs : List (String × String)) : (labels pairs).Nodup :=
  sortStrings_nodup (List.nodup_dedup _)

theorem mem_labels_of_mem {pairs : List (String × String)} {p : String × String}
    (hp : p ∈ pairs) : p.1 ∈ labels pairs ∧ p.2 ∈ labels pairs := by
  constructor <;>
    · rw [labels, mem_sortStrings, labelsSet, List.mem_dedup, List.mem_flatMap]
      exact ⟨p, hp, by simp⟩

theorem labels_ne_nil {pairs : List (String × String)} (h : pairs ≠ []) :
    labels pairs ≠ [] := by
  obtain ⟨p, hp⟩ := List.exists_mem_of_ne_nil pairs h
  exact List.ne_nil_of_mem (mem_labels_of_mem hp).1

theorem sum_map_ite_eq_zero {α : Type} [DecidableEq α] {l : List α} {a : α}
    (h : a ∉ l) : (l.map (fun x => if a = x then (1 : Nat) else 0)).sum = 0 := by
  induction l with
  | nil => rfl
  | cons b bs ih =>
      have hab : a ≠ b := fun hab => h (hab ▸ List.mem_cons_self b bs)
      simp only [List.map_cons, List.sum_cons, if_neg hab, zero_add]
      exact ih (fun hm => h (List.mem_cons_of_mem b hm))

theorem sum_map_ite_eq_one {α : Type} [DecidableEq α] {l : List α} {a : α}
    (hnd : l.Nodup) (ha : a ∈ l) :
    (l.map (fun x => if a = x then (1 : Nat) else 0)).sum = 1 := by
  induction l with
  | nil => cases ha
  | cons b bs ih =>
      rcases List.mem_cons.mp ha with hab | hm
      · subst hab
        rw [List.map_cons, List.sum_cons, if_pos rfl,
          sum_map_ite_eq_zero (List.nodup_cons.mp hnd).1]
      · have hab : a ≠ b := fun hab => (List.nodup_cons.mp hnd).1 (hab ▸ hm)
        simp only [List.map_cons, List.sum_cons, if_neg hab]
        rw [ih (List.nodup_cons.mp hnd).2 hm]

/-- Summing, over a duplicate-free list of labels covering the keys, the
number of pairs with a given key and satisfying a condition, yields the
total number of pairs satisfying the condition. -/
theorem sum_map_countP_key (pairs : List (String × String))
    (cond : String × String → Bool) (key : String × String → String)
    (lbls : List String) (hnd : lbls.Nodup)
    (hmem : ∀ p ∈ pairs, cond p = true → key p ∈ lbls) :
    (lbls.map (fun l => pairs.countP (fun p => key p == l && cond p))).sum
      = pairs.countP cond := by
  induction pairs with
  | nil => simp
  | cons p ps ih =>
      have hmem' : ∀ q ∈ ps, cond q = true → key q ∈ lbls :=
        fun q hq => hmem q (List.mem_cons_of_mem p hq)
      simp only [List.countP_cons]
      rw [List.sum_map_add, ih hmem']
      congr 1
      by_cases h : cond p = true
      · simp only [h, Bool.and_true, if_pos rfl]
        have : ∀ l, (if (key p == l) = true then (1 : Nat) else 0)
            = (if key p = l then (1 : Nat) else 0) := by
          intro l
          by_cases hl : key p = l <;> simp [hl]
        simp only [this]
        rw [sum_map_ite_eq_one hnd (hmem p (List.mem_cons_self p ps) h)]
        simp [h]
      · have hb : cond p = false := Bool.eq_false_iff.mpr h
        simp [hb]

theorem zip_take_left (l1 : List α) (l2 : List β) :
    (l1.take l2.length).zip l2 = l1.zip l2 := by
  induction l1 generalizing l2 with
  | nil => simp
  | cons a as ih =>
      cases l2 with
      | nil => simp
      | cons b bs => simp [ih]

theorem zip_take_right (l1 : List α) (l2 : List β) :
    l1.zip (l2.take l1.length) = l1.zip l2 := by
  induction l1 generalizing l2 with
  | nil => simp
  | cons a as ih =>
      cases l2 with
      | nil => simp
      | cons b bs => simp [ih]

theorem zip_take_min (l1 : List α) (l2 : List β) :
    (l1.take (min l1.length l2.length)).zip (l2.take (min l1.length l2.length))
      = l1.zip l2 := by
  induction l1 generalizing l2 with
  | nil => simp
  | cons a as ih =>
      cases l2 with
      | nil => simp
      | cons b bs => simp [Nat.succ_min_succ, ih]

theorem dictInsert_ne_nil (d : List (String × α)) (k : String) (v : α) :
    dictInsert d k v ≠ [] := by
  cases d with
  | nil => simp [dictInsert]
  | cons x rest =>
      rw [dictInsert]
      by_cases h : x.1 = k <;> simp [h]

theorem forall_snd_dictInsert {P : α → Prop} {d : List (String × α)}
    (hd : ∀ x ∈ d, P x.2) {v : α} (hv : P v) (k : String) :
    ∀ x ∈ dictInsert d k v, P x.2 := by
  induction d with
  | nil => simpa [dictInsert] using hv
  | cons y rest ih =>
      rw [dictInsert]
      by_cases h : y.1 = k
      · simp only [h, if_pos rfl]
        intro x hx
        rcases List.mem_cons.mp hx with hx | hx
        · subst hx; exact hv
        · exact hd x (List.mem_cons_of_mem y hx)
      · simp only [if_neg h]
        intro x hx
        rcases List.mem_cons.mp hx with hx | hx
        · subst hx; exact hd y (List.mem_cons_self y rest)
        · exact ih (fun z hz => hd z (List.mem_cons_of_mem y hz)) x hx

theorem forall_snd_perExampleFoldl {P : α → Prop} (score : Example → ModelResponse → α)
    (pairs : List (Example × ModelResponse)) :
    ∀ d0 : List (String × α), (∀ x ∈ d0, P x.2) →
      (∀ p ∈ pairs, P (score p.1 p.2)) →
      ∀ x ∈ pairs.foldl (fun d p => dictInsert d p.1.uid (score p.1 p.2)) d0, P x.2 := by
  induction pairs with
  | nil => intro d0 hd0 _ x hx; exact hd0 x hx
  | cons p ps ih =>
      intro d0 hd0 hp x hx
      exact ih (dictInsert d0 p.1.uid (score p.1 p.2))
        (forall_snd_dictInsert hd0 (hp p (List.mem_cons_self p ps)) p.1.uid)
        (fun q hq => hp q (List.mem_cons_of_mem p hq)) x hx

theorem foldl_dict_ne_nil_of_ne_nil (score : Example → ModelResponse → α)
    (pairs : List (Example × ModelResponse)) :
    ∀ d0 : List (String × α), d0 ≠ [] →
      pairs.foldl (fun d p => dictInsert d p.1.uid (score p.1 p.2)) d0 ≠ [] := by
  induction pairs with
  | nil => intro d0 h; exact h
  | cons p ps ih =>
      intro d0 _
      exact ih (dictInsert d0 p.1.uid (score p.1 p.2)) (dictInsert_ne_nil d0 _ _)

theorem perExampleDict_ne_nil (score : Example → ModelResponse → α)
    {examples : List Example} {responses : List ModelResponse}
    (h : examples.zip responses ≠ []) :
    perExampleDict score examples responses ≠ [] := by
  rw [perExampleDict]
  cases hz : examples.zip responses with
  | nil => exact absurd hz h
  | cons p ps =>
      rw [List.foldl_cons]
      exact foldl_dict_ne_nil_of_ne_nil score ps _ (dictInsert_ne_nil [] _ _)

theorem list_sum_of_all_one {α : Type} [DivisionRing α] (l : List α)
    (h : ∀ x ∈ l, x = 1) : l.sum = (l.length : α) := by
  induction l with
  | nil => simp
  | cons x xs ih =>
      rw [List.sum_cons, h x (List.mem_cons_self x xs),
        ih (fun y hy => h y (List.mem_cons_of_mem x hy)), List.length_cons]
      push_cast
      rw [add_comm]

theorem meanValue_eq_one {α : Type} [DivisionRing α] [CharZero α]
    (d : List (String × α)) (hne : d ≠ []) (h1 : ∀ x ∈ d, x.2 = 1) :
    meanValue d = 1 := by
  rw [meanValue, if_pos (by simpa [List.isEmpty_iff] using hne)]
  rw [list_sum_of_all_one (d.map Prod.snd) (by
    intro x hx
    obtain ⟨y, hy, rfl⟩ := List.mem_map.mp hx
    exact h1 y hy)]
  rw [List.length_map]
  exact div_self (by
    exact_mod_cast (Nat.cast_ne_zero (R := α)).mpr (by
      simpa [List.length_eq_zero] using hne))

/-- The accuracy loop counts the positions where Python `==` holds. -/
theorem accuracyLoop_eq_countP (l : List (Example × ModelResponse)) :
    accuracyLoop l = l.countP (fun p => p.1.expected_output.pyEq p.2.output) := by
  induction l with
  | nil => rfl
  | cons p rest ih =>
      rw [accuracyLoop, ih, List.countP_cons]
      by_cases h : p.1.expected_output.pyEq p.2.output = true <;> simp [h, Nat.add_comm]

/-! ## Claim C1 -/

/-- C1: for every aligned `(examples, responses)` pair, `AccuracyMetric.compute`
returns `value = correct / total` where `correct` counts the positions with
`expected_output == output` (Python `==`) and `total = len(responses)`;
it returns `0.0` when `total == 0`; the value lies in `[0, 1]`; and
`details` is exactly `{correct, total}`. -/
theorem C1_accuracy_value_bounds_details (name : String) (examples : List Example)
    (responses : List ModelResponse) (h : examples.length = responses.length) :
    (AccuracyMetric.compute name examples responses).value =
      (if responses.length = 0 then 0 else
        (((examples.zip responses).countP
            (fun p => p.1.expected_output.pyEq p.2.output) : ℚ) /
          (responses.length : ℚ))) ∧
    (0 : ℚ) ≤ (AccuracyMetric.compute name examples responses).value ∧
    (AccuracyMetric.compute name examples responses).value ≤ 1 ∧
    (AccuracyMetric.compute name examples responses).details =
      { correct := (examples.zip responses).countP
          (fun p => p.1.expected_output.pyEq p.2.output),
        total := responses.length } := by
  have hloop := accuracyLoop_eq_countP (examples.zip responses)
  have hc_le : (examples.zip responses).countP
      (fun p => p.1.expected_output.pyEq p.2.output) ≤ responses.length := by
    calc (examples.zip responses).countP (fun p => p.1.expected_output.pyEq p.2.output)
        ≤ (examples.zip responses).length := List.countP_le_length _
      _ = min examples.length responses.length := List.length_zip examples responses
      _ ≤ responses.length := min_le_right _ _
  by_cases h0 : responses.length = 0
  · exact ⟨by simp [AccuracyMetric.compute, h0], by simp [AccuracyMetric.compute, h0],
      by simp [AccuracyMetric.compute, h0], by simp [AccuracyMetric.compute, h0, hloop]⟩
  · have hval : (AccuracyMetric.compute name examples responses).value =
        (((examples.zip responses).countP
            (fun p => p.1.expected_output.pyEq p.2.output) : ℚ) /
          (responses.length : ℚ)) := by
      simp [AccuracyMetric.compute, h0, hloop]
    refine ⟨by rw [hval, if_neg h0], ?_, ?_, by simp [AccuracyMetric.compute, hloop]⟩
    · rw [hval]
      exact div_nonneg (by positivity) (by positivity)
    · rw [hval, div_le_one (by exact_mod_cast Nat.pos_of_ne_zero h0)]
      exact_mod_cast hc_le

/-- Witness for C1: the hypothesis holds and the theorem applies at a
concrete aligned pair. -/
theorem C1_accuracy_value_bounds_details_witness :
    ([exYes].length = [respYes].length) ∧
    (0 : ℚ) ≤ (AccuracyMetric.compute "accuracy" [exYes] [respYes]).value ∧
    (AccuracyMetric.compute "accuracy" [exYes] [respYes]).value ≤ 1 :=
  ⟨rfl, (C1_accuracy_value_bounds_details "accuracy" [exYes] [respYes] rfl).2.1,
    (C1_accuracy_value_bounds_details "accuracy" [exYes] [respYes] rfl).2.2.1⟩

/-! ## Claim C2 -/

/-- Diagonal of a square matrix whose rows and columns are both indexed by
the same label list, starting at the row offset `pre.length`. -/
theorem diagSumFrom_square (f : String → String → Nat) :
    ∀ (gs pre : List String),
      diagSumFrom pre.length (gs.map (fun g => (pre ++ gs).map (fun p => f g p)))
        = (gs.map (fun l => f l l)).sum := by
  intro gs
  induction gs with
  | nil => intro pre; simp [diagSumFrom]
  | cons a gs ih =>
      intro pre
      rw [List.map_cons, diagSumFrom]
      have hrow : ((pre ++ a :: gs).map (fun p => f a p)).getD pre.length 0 = f a a := by
        rw [List.getD_eq_getElem?_getD, List.getElem?_map,
          List.getElem?_append_right (le_refl pre.length)]
        simp
      have ih' := ih (pre ++ [a])
      simp only [List.append_assoc, List.singleton_append, List.length_append,
        List.length_singleton] at ih'
      rw [hrow, ih', List.map_cons, List.sum_cons]

/-- The diagonal sum of a label-indexed square matrix is the sum of its
diagonal generator over the label list. -/
theorem diagSum_map_map (f : String → String → Nat) (ls : List String) :
    diagSum (ls.map (fun g => ls.map (fun p => f g p))) =
      (ls.map (fun l => f l l)).sum := by
  have h := diagSumFrom_square f ls []
  simpa [diagSum] using h

/-- C2 counterexample: the claim as stated is false.  With expected output
the integer `1` and predicted output the string `"1"`, the confusion matrix
(which compares stringified labels) has diagonal sum `1`, while Accuracy's
numerator (which compares the raw values with Python `==`) is `0`. -/
theorem C2_counterexample_int_vs_str :
    diagSum (ConfusionMatrixMetric.matrix [exIntOne] [respStrOne]) = 1 ∧
    (AccuracyMetric.compute "accuracy" [exIntOne] [respStrOne]).details.correct = 0 := by
  constructor <;> decide

/-- C2 (amended): for every `(examples, responses)` pair on which Python
equality of the raw outputs agrees with equality of their stringifications
(in particular whenever all outputs are strings), the diagonal sum of
`ConfusionMatrixMetric`'s matrix equals the `correct` numerator of
`AccuracyMetric` on the same pair. -/
theorem C2_confusion_diag_eq_accuracy_correct (name : String)
    (examples : List Example) (responses : List ModelResponse)
    (h : ∀ p ∈ examples.zip responses,
      p.1.expected_output.pyEq p.2.output =
        (p.1.expected_output.toStr == p.2.output.toStr)) :
    diagSum (ConfusionMatrixMetric.matrix examples responses) =
      (AccuracyMetric.compute name examples responses).details.correct := by
  have hmatrix : diagSum (ConfusionMatrixMetric.matrix examples responses) =
      ((labels (goldPredPairs examples responses)).map (fun l =>
        confusionCount (goldPredPairs examples responses) l l)).sum := by
    rw [ConfusionMatrixMetric.matrix]
    exact diagSum_map_map (confusionCount (goldPredPairs examples responses)) _
  have hdiag : ∀ l, confusionCount (goldPredPairs examples responses) l l =
      (goldPredPairs examples responses).countP (fun q => q.1 == l && q.1 == q.2) := by
    intro l
    apply List.countP_congr
    intro q _
    simp only [Bool.and_eq_true, beq_iff_eq]
    exact ⟨fun hq => ⟨hq.1, hq.1.trans hq.2.symm⟩,
      fun hq => ⟨hq.1, hq.2.symm.trans hq.1⟩⟩
  have hsum : ((labels (goldPredPairs examples responses)).map (fun l =>
      (goldPredPairs examples responses).countP
        (fun q => q.1 == l && q.1 == q.2))).sum =
      (goldPredPairs examples responses).countP (fun q => q.1 == q.2) :=
    sum_map_countP_key (goldPredPairs examples responses)
      (fun q => q.1 == q.2) Prod.fst (labels (goldPredPairs examples responses))
      (labels_nodup _) (fun p hp _ => (mem_labels_of_mem hp).1)
  have hpairs : (goldPredPairs examples responses).countP (fun q => q.1 == q.2) =
      (examples.zip responses).countP
        (fun p => p.1.expected_output.toStr == p.2.output.toStr) := by
    rw [goldPredPairs, List.countP_map]
    rfl
  have hcorrect : (AccuracyMetric.compute name examples responses).details.correct =
      (examples.zip responses).countP
        (fun p => p.1.expected_output.toStr == p.2.output.toStr) := by
    have : (AccuracyMetric.compute name examples responses).details.correct =
        accuracyLoop (examples.zip responses) := rfl
    rw [this, accuracyLoop_eq_countP]
    exact List.countP_congr (fun p hp => by rw [h p hp])
  rw [hmatrix, hcorrect, ← hpairs, ← hsum]
  exact congrArg (fun t => (List.map t (labels (goldPredPairs examples responses))).sum)
    (funext hdiag)

/-- Witness for C2 at a concrete all-string pair. -/
theorem C2_confusion_diag_eq_accuracy_correct_witness :
    (∀ p ∈ [exYes].zip [respNo],
      p.1.expected_output.pyEq p.2.output =
        (p.1.expected_output.toStr == p.2.output.toStr)) ∧
    diagSum (ConfusionMatrixMetric.matrix [exYes] [respNo]) =
      (AccuracyMetric.compute "accuracy" [exYes] [respNo]).details.correct :=
  ⟨by decide, C2_confusion_diag_eq_accuracy_correct "accuracy" [exYes] [respNo] (by decide)⟩

/-! ## Claim C8 -/

theorem charListLe_trans : ∀ (l1 l2 l3 : List Char), charListLe l1 l2 = true →
    charListLe l2 l3 = true → charListLe l1 l3 = true := by
  intro l1
  induction l1 with
  | nil => intro l2 l3 _ _; rfl
  | cons x xs ih =>
      intro l2 l3 h12 h23
      cases l2 with
      | nil => simp [charListLe] at h12
      | cons y ys =>
          cases l3 with
          | nil => simp [charListLe] at h23
          | cons z zs =>
              rw [charListLe] at h12 h23 ⊢
              by_cases hxy : x = y
              · subst hxy
                rw [if_pos rfl] at h12
                by_cases hyz : x = z
                · subst hyz
                  rw [if_pos rfl] at h23
                  rw [if_pos rfl]
                  exact ih ys zs h12 h23
                · rw [if_neg hyz] at h23
                  rw [if_neg hyz]
                  exact h23
              · rw [if_neg hxy] at h12
                have hlt_xy : x < y := of_decide_eq_true h12
                by_cases hyz : y = z
                · subst hyz
                  rw [if_neg hxy]
                  exact decide_eq_true hlt_xy
                · rw [if_neg hyz] at h23
                  have hlt_yz : y < z := of_decide_eq_true h23
                  have hlt : x < z := lt_trans hlt_xy hlt_yz
                  rw [if_neg (ne_of_lt hlt)]
                  exact decide_eq_true hlt

theorem charListLe_total : ∀ (l1 l2 : List Char),
    charListLe l1 l2 = true ∨ charListLe l2 l1 = true := by
  intro l1
  induction l1 with
  | nil => intro l2; left; rfl
  | cons x xs ih =>
      intro l2
      cases l2 with
      | nil => right; rfl
      | cons y ys =>
          rw [charListLe, charListLe]
          by_cases hxy : x = y
          · subst hxy
            rw [if_pos rfl, if_pos rfl]
            exact ih ys
          · rcases lt_or_gt_of_ne hxy with h | h
            · left; rw [if_neg hxy]; exact decide_eq_true h
            · right; rw [if_neg (Ne.symm hxy)]; exact decide_eq_true h

theorem strLe_trans (a b c : String) (hab : strLe a b = true) (hbc : strLe b c = true) :
    strLe a c = true :=
  charListLe_trans a.toList b.toList c.toList hab hbc

theorem strLe_total (a b : String) : strLe a b = true ∨ strLe b a = true :=
  charListLe_total a.toList b.toList

theorem pairwise_insertSorted (a : String) (l : List String)
    (hl : l.Pairwise (fun x y => strLe x y = true)) :
    (insertSorted a l).Pairwise (fun x y => strLe x y = true) := by
  induction l with
  | nil => simp [insertSorted]
  | cons b bs ih =>
      rw [insertSorted]
      rcases List.pairwise_cons.mp hl with ⟨hb, hbs⟩
      by_cases h : strLe a b = true
      · rw [if_pos h]
        refine List.pairwise_cons.mpr ⟨?_, hl⟩
        intro y hy
        rcases List.mem_cons.mp hy with rfl | hy
        · exact h
        · exact strLe_trans a b y h (hb y hy)
      · rw [if_neg h]
        refine List.pairwise_cons.mpr ⟨?_, ih hbs⟩
        intro y hy
        have hmem := (insertSorted_perm a bs).mem_iff.mp hy
        rcases List.mem_cons.mp hmem with rfl | hy2
        · rcases strLe_total y b with hab | hba
          · exact absurd hab h
          · exact hba
        · exact hb y hy2

/-- `sortStrings` produces a list sorted by the code-point order. -/
theorem sortStrings_pairwise (l : List String) :
    (sortStrings l).Pairwise (fun x y => strLe x y = true) := by
  induction l with
  | nil => simp [sortStrings]
  | cons a as ih => exact pairwise_insertSorted a (sortStrings as) ih

/-- C8: `Registry.create` on an unregistered key fails with the unknown-key
error whose message is built from the sorted list of known keys (sorted and
a permutation of the registered keys), and never returns a value; on a
registered key it constructs the instance, forwarding the given arguments
verbatim to the registered constructor. -/
theorem C8_registry_create_unknown_and_forwarding (σ ω : Type) (r : Registry σ ω)
    (key : String) (args : σ) :
    (r.items.lookup key = none →
      Registry.create r key args =
        .error (unknownEntryMessage r.name (r.items.map Prod.fst) key) ∧
      (∀ v : ω, Registry.create r key args ≠ .ok v) ∧
      (sortStrings (r.items.map Prod.fst)).Pairwise (fun x y => strLe x y = true) ∧
      (sortStrings (r.items.map Prod.fst)).Perm (r.items.map Prod.fst)) ∧
    (∀ cls : σ → ω, r.items.lookup key = some cls →
      Registry.create r key args = .ok (cls args)) := by
  constructor
  · intro hnone
    refine ⟨?_, ?_, sortStrings_pairwise _, sortStrings_perm _⟩
    · rw [Registry.create, hnone]
    · intro v hv
      rw [Registry.create, hnone] at hv
      exact Except.noConfusion hv
  · intro cls hsome
    rw [Registry.create, hsome]

/-- Witness for C8 at a concrete registry: the miss produces exactly the
message with the sorted keys, the hit forwards the arguments. -/
theorem C8_registry_create_unknown_and_forwarding_witness :
    regDemo.items.lookup "missing" = none ∧
    Registry.create regDemo "missing" 0 =
      .error "Unknown entry 'missing' for registry 'metric'. Available: a, b." ∧
    Registry.create regDemo "b" 4 = .ok 5 := by
  refine ⟨rfl, ?_, ?_⟩
  · have h := ((C8_registry_create_unknown_and_forwarding Nat Nat regDemo
      "missing" 0).1 rfl).1
    rw [h]
    rfl
  · exact (C8_registry_create_unknown_and_forwarding Nat Nat regDemo "b" 4).2
      (fun n => n + 1) rfl

/-! ## Claim C9 -/

/-- When `predict_batch` is the sequential map, the batch-accumulation loop
flattens back to a single map over the concatenated input. -/
theorem runBatches_of_map (predict : Example → ModelResponse) (batch_size : Int) :
    ∀ (dataset batch : List Example),
      runBatches (fun exs => exs.map predict) batch_size batch dataset =
        (batch ++ dataset).map predict := by
  intro dataset
  induction dataset with
  | nil =>
      intro batch
      rw [runBatches]
      by_cases h : batch.isEmpty
      · rw [if_pos h, List.isEmpty_iff.mp h]
        simp
      · rw [if_neg h]
        simp
  | cons e rest ih =>
      intro batch
      rw [runBatches]
      by_cases h : ((batch ++ [e]).length : Int) ≥ batch_size
      · rw [if_pos h, ih []]
        simp
      · rw [if_neg h, ih (batch ++ [e])]
        simp

/-- C9: an adapter that keeps the default `predict_batch` returns, for any
list of examples, exactly the list of sequential `predict` results (same
length, same order); and for every `batch_size` configuration (absent,
`≤ 1`, or `> 1` with a final partial batch) the batched task run equals
sequential per-example prediction over the dataset in order. -/
theorem C9_default_predict_batch_and_batched_run (model : ModelAdapter)
    (examples dataset : List Example)
    (h : model.predict_batch = defaultPredictBatch model.predict) :
    model.predict_batch examples = examples.map model.predict ∧
    (model.predict_batch examples).length = examples.length ∧
    RetrievalQuestionAnsweringTask.run model dataset = dataset.map model.predict := by
  refine ⟨by rw [h]; rfl, by rw [h]; simp [defaultPredictBatch], ?_⟩
  rw [RetrievalQuestionAnsweringTask.run]
  cases hbs : model.batch_size with
  | none => rfl
  | some bs =>
      dsimp only
      by_cases hb1 : bs ≤ 1
      · rw [if_pos hb1]
      · rw [if_neg hb1, h]
        have hrun := runBatches_of_map model.predict bs dataset []
        simpa [defaultPredictBatch] using hrun

/-- Witness for C9: a concrete adapter with `batch_size = 2`, the default
`predict_batch`, and a three-example dataset (final partial batch). -/
theorem C9_default_predict_batch_and_batched_run_witness :
    echoAdapter.predict_batch = defaultPredictBatch echoAdapter.predict ∧
    RetrievalQuestionAnsweringTask.run echoAdapter [exYes, exCat, exIntOne] =
      [exYes, exCat, exIntOne].map echoAdapter.predict :=
  ⟨rfl, (C9_default_predict_batch_and_batched_run echoAdapter []
    [exYes, exCat, exIntOne] rfl).2.2⟩

/-! ## Claims C6 and C10 -/

theorem zip_take_min_left (l1 : List α) (l2 : List β) :
    (l1.take (min l1.length l2.length)).zip l2 = l1.zip l2 := by
  rcases le_total l1.length l2.length with h | h
  · rw [min_eq_left h, List.take_length]
  · rw [min_eq_right h, zip_take_left]

/-- C6 counterexample: the claim as stated is false.  On a misaligned call
(1 example, 2 responses) `AccuracyMetric.compute` does not fail: it
silently returns a normal result scoring the zipped prefix, with the
surplus response still counted in `total`. -/
theorem C6_counterexample_no_error_on_misaligned :
    ([exYes] : List Example).length ≠ ([respYes, respNo] : List ModelResponse).length ∧
    AccuracyMetric.compute "accuracy" [exYes] [respYes, respNo] =
      { name := "accuracy", value := 1 / 2, details := { correct := 1, total := 2 } } := by
  constructor
  · decide
  · have h1 : accuracyLoop ([exYes].zip [respYes, respNo]) = 1 := by decide
    simp only [AccuracyMetric.compute, h1]
    norm_num

/-- C6 (amended): no misaligned-batch error exists.  On a call with
`len(examples) != len(responses)` every metric returns normally, scoring
exactly the first `min` positions (the `zip`-truncated prefix):
truncating the inputs to the common prefix does not change any result
(`AccuracyMetric` ignores surplus examples entirely but keeps
`total = len(responses)`). -/
theorem C6_metrics_truncate_on_misaligned (name average : String)
    (examples : List Example) (responses : List ModelResponse)
    (h : examples.length ≠ responses.length) :
    AccuracyMetric.compute name examples responses =
      AccuracyMetric.compute name
        (examples.take (min examples.length responses.length)) responses ∧
    RougeLMetric.value examples responses =
      RougeLMetric.value (examples.take (min examples.length responses.length))
        (responses.take (min examples.length responses.length)) ∧
    PrecisionMetric.value average examples responses =
      PrecisionMetric.value average
        (examples.take (min examples.length responses.length))
        (responses.take (min examples.length responses.length)) ∧
    ConfusionMatrixMetric.compute name examples responses =
      ConfusionMatrixMetric.compute name
        (examples.take (min examples.length responses.length))
        (responses.take (min examples.length responses.length)) := by
  refine ⟨?_, ?_, ?_, ?_⟩
  · rw [AccuracyMetric.compute, AccuracyMetric.compute, zip_take_min_left]
  · rw [RougeLMetric.value, RougeLMetric.value, perExampleDict, perExampleDict,
      zip_take_min]
  · rw [PrecisionMetric.value, PrecisionMetric.value, goldPredPairs, goldPredPairs,
      zip_take_min]
  · rw [ConfusionMatrixMetric.compute, ConfusionMatrixMetric.compute,
      ConfusionMatrixMetric.matrix, ConfusionMatrixMetric.matrix,
      goldPredPairs, goldPredPairs, zip_take_min]

/-- Witness for C6 at a concrete misaligned input. -/
theorem C6_metrics_truncate_on_misaligned_witness :
    ([exYes] : List Example).length ≠ ([respYes, respNo] : List ModelResponse).length ∧
    AccuracyMetric.compute "accuracy" [exYes] [respYes, respNo] =
      AccuracyMetric.compute "accuracy"
        ([exYes].take (min ([exYes] : List Example).length
          ([respYes, respNo] : List ModelResponse).length)) [respYes, respNo] :=
  ⟨by decide, (C6_metrics_truncate_on_misaligned "accuracy" "macro" [exYes]
    [respYes, respNo] (by decide)).1⟩

/-- C10 counterexample: the claim as stated is false.  With one example
and two responses where even the aligned position is wrong, the reported
accuracy equals the accuracy of the aligned prefix (both `0.0`): surplus
responses do not *strictly* lower it. -/
theorem C10_counterexample_not_strictly_lower :
    ([exYes] : List Example).length < ([respNo, respNo] : List ModelResponse).length ∧
    (AccuracyMetric.compute "accuracy" [exYes] [respNo, respNo]).value =
      (AccuracyMetric.compute "accuracy" [exYes]
        ([respNo, respNo].take ([exYes] : List Example).length)).value := by
  constructor
  · decide
  · rw [AccuracyMetric.compute, AccuracyMetric.compute]
    norm_num [accuracyLoop, exYes, respNo, PyVal.pyEq,
      show ("yes" : String) ≠ "no" from by decide]

/-- C10 (amended): metrics return normally on misaligned input, scoring
only the first `min` positions; `AccuracyMetric` divides by
`len(responses)`, so surplus responses weakly lower the reported accuracy
relative to the aligned prefix — strictly so whenever at least one aligned
position is correct — while surplus examples are ignored. -/
theorem C10_surplus_responses_lower_accuracy (name : String)
    (examples : List Example) (responses : List ModelResponse)
    (h : examples.length < responses.length) :
    (AccuracyMetric.compute name examples responses).details.correct =
      (AccuracyMetric.compute name examples
        (responses.take examples.length)).details.correct ∧
    (AccuracyMetric.compute name examples responses).value ≤
      (AccuracyMetric.compute name examples (responses.take examples.length)).value ∧
    (0 < (AccuracyMetric.compute name examples responses).details.correct →
      (AccuracyMetric.compute name examples responses).value <
        (AccuracyMetric.compute name examples (responses.take examples.length)).value) ∧
    (∀ (exs2 : List Example) (resps2 : List ModelResponse),
      resps2.length ≤ exs2.length →
        AccuracyMetric.compute name exs2 resps2 =
          AccuracyMetric.compute name (exs2.take resps2.length) resps2) := by
  have hz : examples.zip (responses.take examples.length) = examples.zip responses :=
    zip_take_right examples responses
  have hm : (responses.take examples.length).length = examples.length :=
    List.length_take_of_le (le_of_lt h)
  have hval : ∀ (nm : String) (exs : List Example) (resps : List ModelResponse),
      (AccuracyMetric.compute nm exs resps).value =
        if resps.length ≠ 0 then
          ((accuracyLoop (exs.zip resps) : ℚ) / (resps.length : ℚ))
        else 0 := fun _ _ _ => rfl
  have hn : responses.length ≠ 0 := by omega
  refine ⟨?_, ?_, ?_, ?_⟩
  · show accuracyLoop (examples.zip responses) =
      accuracyLoop (examples.zip (responses.take examples.length))
    rw [hz]
  · rw [hval, hval, hz, hm]
    by_cases h0 : examples.length = 0
    · have hzip : examples.zip responses = [] := by
        have hx : examples = [] := List.length_eq_zero.mp h0
        rw [hx]
        rfl
      simp [hzip, accuracyLoop, h0]
    · rw [if_pos hn, if_pos h0]
      exact div_le_div_of_nonneg_left
        (a := (accuracyLoop (examples.zip responses) : ℚ)) (by positivity)
        (by exact_mod_cast Nat.pos_of_ne_zero h0) (by exact_mod_cast le_of_lt h)
  · intro hpos
    have hpos' : 0 < accuracyLoop (examples.zip responses) := hpos
    have h0 : examples.length ≠ 0 := by
      intro h0
      have hx : examples = [] := List.length_eq_zero.mp h0
      rw [hx] at hpos'
      simp [accuracyLoop] at hpos'
    rw [hval, hval, hz, hm, if_pos hn, if_pos h0]
    exact div_lt_div_of_pos_left
      (a := (accuracyLoop (examples.zip responses) : ℚ)) (by exact_mod_cast hpos')
      (by exact_mod_cast Nat.pos_of_ne_zero h0) (by exact_mod_cast h)
  · intro exs2 resps2 h2
    have hmin := zip_take_min_left exs2 resps2
    rw [min_eq_right h2] at hmin
    rw [AccuracyMetric.compute, AccuracyMetric.compute, hmin]

/-- Witness for C10 at a concrete input with one correct aligned position
and one surplus response: the accuracy drops strictly. -/
theorem C10_surplus_responses_lower_accuracy_witness :
    ([exYes] : List Example).length < ([respYes, respNo] : List ModelResponse).length ∧
    (AccuracyMetric.compute "accuracy" [exYes] [respYes, respNo]).value ≤
      (AccuracyMetric.compute "accuracy" [exYes]
        ([respYes, respNo].take ([exYes] : List Example).length)).value :=
  ⟨by decide, (C10_surplus_responses_lower_accuracy "accuracy" [exYes]
    [respYes, respNo] (by decide)).2.1⟩

/-! ## Claim C7 -/

/-- With a non-empty per-label dict, `_aggregate_scores` on an average mode
outside {macro, weighted, micro} reaches the final `raise ValueError`. -/
theorem aggregateScores_invalid_average (per_label : List (String × ℚ))
    (support : String → Nat) (average : String) (totals : Totals) (score : String)
    (h1 : average ≠ "macro") (h2 : average ≠ "weighted") (h3 : average ≠ "micro")
    (hne : per_label ≠ []) :
    aggregateScores per_label support average totals score =
      .error ("Unsupported average '" ++ average ++
        "'. Use 'macro', 'weighted', or 'micro'.") := by
  obtain ⟨q, rest, rfl⟩ := List.exists_cons_of_ne_nil hne
  rw [aggregateScores]
  simp only [List.map_cons, List.isEmpty_cons, Bool.false_eq_true, if_false,
    if_neg h1, if_neg h2, if_neg h3]

/-- C7 counterexample: the claim as stated is false.  A metric constructed
with the unsupported average mode `"banana"`, computed on the empty
`(examples, responses)` pair, takes the `if not labels: return 0.0` early
exit of `_aggregate_scores` and returns the numeric result `0.0` without
raising. -/
theorem C7_counterexample_empty_input_ok :
    PrecisionMetric.value "banana" [] [] = Except.ok 0 ∧
    RecallMetric.value "banana" [] [] = Except.ok 0 ∧
    F1ScoreMetric.value "banana" [] [] = Except.ok 0 :=
  ⟨rfl, rfl, rfl⟩

/-- C7 (amended): for every precision/recall/F1 metric constructed with an
average mode outside {macro, weighted, micro}, compute on any
`(examples, responses)` pair with at least one aligned position fails with
the invalid-average `ValueError` and never returns a numeric result (on
the empty pair it instead returns `0.0` through the empty-labels early
exit). -/
theorem C7_invalid_average_fails_on_nonempty (average : String)
    (examples : List Example) (responses : List ModelResponse)
    (h1 : average ≠ "macro") (h2 : average ≠ "weighted") (h3 : average ≠ "micro")
    (hne : examples.zip responses ≠ []) :
    (PrecisionMetric.value average examples responses =
      .error ("Unsupported average '" ++ average ++
        "'. Use 'macro', 'weighted', or 'micro'.") ∧
     RecallMetric.value average examples responses =
      .error ("Unsupported average '" ++ average ++
        "'. Use 'macro', 'weighted', or 'micro'.") ∧
     F1ScoreMetric.value average examples responses =
      .error ("Unsupported average '" ++ average ++
        "'. Use 'macro', 'weighted', or 'micro'.")) ∧
    (∀ q : ℚ, PrecisionMetric.value average examples responses ≠ .ok q) ∧
    (∀ q : ℚ, RecallMetric.value average examples responses ≠ .ok q) ∧
    (∀ q : ℚ, F1ScoreMetric.value average examples responses ≠ .ok q) := by
  have hpairs : goldPredPairs examples responses ≠ [] := by
    rw [goldPredPairs]
    simpa [List.map_eq_nil_iff] using hne
  have hlbl : labels (goldPredPairs examples responses) ≠ [] := labels_ne_nil hpairs
  have hp : precisionPerLabel (goldPredPairs examples responses) ≠ [] := by
    rw [precisionPerLabel]
    simpa [List.map_eq_nil_iff] using hlbl
  have hr : recallPerLabel (goldPredPairs examples responses) ≠ [] := by
    rw [recallPerLabel]
    simpa [List.map_eq_nil_iff] using hlbl
  have hf : f1PerLabel (goldPredPairs examples responses) ≠ [] := by
    rw [f1PerLabel]
    simpa [List.map_eq_nil_iff] using hlbl
  have e1 : PrecisionMetric.value average examples responses =
      .error ("Unsupported average '" ++ average ++
        "'. Use 'macro', 'weighted', or 'micro'.") :=
    aggregateScores_invalid_average _ _ _ _ _ h1 h2 h3 hp
  have e2 : RecallMetric.value average examples responses =
      .error ("Unsupported average '" ++ average ++
        "'. Use 'macro', 'weighted', or 'micro'.") :=
    aggregateScores_invalid_average _ _ _ _ _ h1 h2 h3 hr
  have e3 : F1ScoreMetric.value average examples responses =
      .error ("Unsupported average '" ++ average ++
        "'. Use 'macro', 'weighted', or 'micro'.") :=
    aggregateScores_invalid_average _ _ _ _ _ h1 h2 h3 hf
  refine ⟨⟨e1, e2, e3⟩, ?_, ?_, ?_⟩ <;> intro q hq
  · rw [e1] at hq
    exact Except.noConfusion hq
  · rw [e2] at hq
    exact Except.noConfusion hq
  · rw [e3] at hq
    exact Except.noConfusion hq

/-- Witness for C7 at a concrete non-empty pair and the unsupported
average mode `"banana"`. -/
theorem C7_invalid_average_fails_on_nonempty_witness :
    (("banana" : String) ≠ "macro") ∧
    ([exYes].zip [respNo] ≠ []) ∧
    PrecisionMetric.value "banana" [exYes] [respNo] =
      .error "Unsupported average 'banana'. Use 'macro', 'weighted', or 'micro'." := by
  refine ⟨by decide, by decide, ?_⟩
  have h := ((C7_invalid_average_fails_on_nonempty "banana" [exYes] [respNo]
    (by decide) (by decide) (by decide) (by decide)).1).1
  rw [h]
  rfl

/-! ## Claim C3 -/

/-- On a single observed label, every gathered statistic degenerates:
`tp[L] = n`, `fp[L] = fn[L] = 0`, and macro and micro aggregation both
give the value 1 for precision, recall and F1. -/
theorem singleLabel_macro_eq_micro (pairs : List (String × String)) (L : String)
    (hL : labels pairs = [L]) :
    (aggregateScores (precisionPerLabel pairs) (supportCount pairs) "macro"
        (mkTotals pairs) "precision" =
      aggregateScores (precisionPerLabel pairs) (supportCount pairs) "micro"
        (mkTotals pairs) "precision") ∧
    (aggregateScores (recallPerLabel pairs) (supportCount pairs) "macro"
        (mkTotals pairs) "recall" =
      aggregateScores (recallPerLabel pairs) (supportCount pairs) "micro"
        (mkTotals pairs) "recall") ∧
    (aggregateScores (f1PerLabel pairs) (supportCount pairs) "macro"
        (mkTotals pairs) "f1" =
      aggregateScores (f1PerLabel pairs) (supportCount pairs) "micro"
        (mkTotals pairs) "f1") := by
  have hne : pairs ≠ [] := by
    intro hp
    rw [hp] at hL
    simp [labels, labelsSet, sortStrings] at hL
  have hall : ∀ p ∈ pairs, p.1 = L ∧ p.2 = L := by
    intro p hp
    have h1 := (mem_labels_of_mem hp).1
    have h2 := (mem_labels_of_mem hp).2
    rw [hL] at h1 h2
    exact ⟨List.mem_singleton.mp h1, List.mem_singleton.mp h2⟩
  have hn : pairs.length ≠ 0 := by simpa [List.length_eq_zero] using hne
  have hq : (pairs.length : ℚ) ≠ 0 := Nat.cast_ne_zero.mpr hn
  have htp : tpCount pairs L = pairs.length := by
    rw [tpCount]
    exact List.countP_eq_length.mpr (fun p hp => by
      rcases hall p hp with ⟨ha, hb⟩
      simp [ha, hb])
  have hfp : fpCount pairs L = 0 := by
    rw [fpCount]
    exact List.countP_eq_zero.mpr (fun p hp => by
      rcases hall p hp with ⟨ha, hb⟩
      simp [ha, hb])
  have hfn : fnCount pairs L = 0 := by
    rw [fnCount]
    exact List.countP_eq_zero.mpr (fun p hp => by
      rcases hall p hp with ⟨ha, hb⟩
      simp [ha, hb])
  have hone : safeDiv ((pairs.length : ℕ) : ℚ)
      (((pairs.length : ℕ) : ℚ) + ((0 : ℕ) : ℚ)) = 1 := by
    rw [Nat.cast_zero, add_zero, safeDiv, if_pos hq]
    exact div_self hq
  have hpl : precisionPerLabel pairs = [(L, 1)] := by
    rw [precisionPerLabel, hL]
    simp only [List.map_cons, List.map_nil, htp, hfp]
    rw [hone]
  have hrl : recallPerLabel pairs = [(L, 1)] := by
    rw [recallPerLabel, hL]
    simp only [List.map_cons, List.map_nil, htp, hfn]
    rw [hone]
  have hf1 : f1PerLabel pairs = [(L, 1)] := by
    rw [f1PerLabel, hL]
    simp only [List.map_cons, List.map_nil, htp, hfp, hfn]
    rw [hone]
    norm_num
  have htot : mkTotals pairs = { tp := pairs.length, fp := 0, fn := 0 } := by
    rw [mkTotals, hL]
    simp [htp, hfp, hfn]
  have hmacro : ∀ (supp : String → Nat) (t : Totals) (sc : String),
      aggregateScores [(L, 1)] supp "macro" t sc = .ok 1 := by
    intro supp t sc
    rw [aggregateScores]
    norm_num [List.lookup_cons]
  have hmicroPR : ∀ (supp : String → Nat) (sc : String), sc = "precision" ∨ sc = "recall" →
      aggregateScores [(L, 1)] supp "micro" (mkTotals pairs) sc = .ok 1 := by
    intro supp sc hsc
    rw [htot, aggregateScores]
    rcases hsc with rfl | rfl <;>
      norm_num [safeDiv, hq, div_self hq,
        show ("micro" : String) ≠ "macro" from by decide,
        show ("micro" : String) ≠ "weighted" from by decide,
        show ("recall" : String) ≠ "precision" from by decide]
  have hmicroF : ∀ supp : String → Nat,
      aggregateScores [(L, 1)] supp "micro" (mkTotals pairs) "f1" = .ok 1 := by
    intro supp
    rw [htot, aggregateScores]
    norm_num [safeDiv, hq, div_self hq,
      show ("micro" : String) ≠ "macro" from by decide,
      show ("micro" : String) ≠ "weighted" from by decide,
      show ("f1" : String) ≠ "precision" from by decide,
      show ("f1" : String) ≠ "recall" from by decide]
  refine ⟨?_, ?_, ?_⟩
  · rw [hpl, hmacro, hmicroPR (supportCount pairs) "precision" (Or.inl rfl)]
  · rw [hrl, hmacro, hmicroPR (supportCount pairs) "recall" (Or.inr rfl)]
  · rw [hf1, hmacro, hmicroF (supportCount pairs)]

/-- C3: for every aligned pair in which exactly one label is observed
(the union of stringified expected and predicted values has size 1), the
macro-averaged precision, recall, and F1 each equal the corresponding
micro-averaged value. -/
theorem C3_macro_eq_micro_on_single_label (examples : List Example)
    (responses : List ModelResponse)
    (h : (labels (goldPredPairs examples responses)).length = 1) :
    PrecisionMetric.value "macro" examples responses =
      PrecisionMetric.value "micro" examples responses ∧
    RecallMetric.value "macro" examples responses =
      RecallMetric.value "micro" examples responses ∧
    F1ScoreMetric.value "macro" examples responses =
      F1ScoreMetric.value "micro" examples responses := by
  obtain ⟨L, hL⟩ : ∃ L, labels (goldPredPairs examples responses) = [L] := by
    cases hl : labels (goldPredPairs examples responses) with
    | nil => rw [hl] at h; simp at h
    | cons a t =>
        rw [hl, List.length_cons] at h
        have ht : t = [] := List.length_eq_zero.mp (by omega)
        exact ⟨a, by rw [ht]⟩
  exact singleLabel_macro_eq_micro (goldPredPairs examples responses) L hL

/-- Witness for C3 at a concrete single-label input. -/
theorem C3_macro_eq_micro_on_single_label_witness :
    (labels (goldPredPairs [exYes] [respYes])).length = 1 ∧
    PrecisionMetric.value "macro" [exYes] [respYes] =
      PrecisionMetric.value "micro" [exYes] [respYes] :=
  ⟨by decide, (C3_macro_eq_micro_on_single_label [exYes] [respYes] (by decide)).1⟩

/-! ## Claims C4 and C5: token-level lemmas -/

theorem lcsLength_self : ∀ t : List String, lcsLength t t = t.length := by
  intro t
  induction t with
  | nil => simp [lcsLength]
  | cons r rs ih => simp [lcsLength, ih]

/-- A pair whose two sides tokenize identically gets ROUGE-L score 1. -/
theorem rougePerExample_eq_one (ex : Example) (response : ModelResponse)
    (h : tokenize response.output.toStr = tokenize ex.expected_output.toStr) :
    rougePerExample ex response = 1 := by
  rw [rougePerExample, h]
  by_cases ht : (tokenize ex.expected_output.toStr).isEmpty
  · simp [ht]
  · have ht' : (tokenize ex.expected_output.toStr).isEmpty = false :=
      Bool.eq_false_iff.mpr ht
    have hlen : ((tokenize ex.expected_output.toStr).length : ℚ) ≠ 0 := by
      rw [Nat.cast_ne_zero]
      simpa [List.isEmpty_iff, List.length_eq_zero] using ht
    simp only [ht', Bool.and_self, Bool.false_eq_true, if_false, lcsLength_self,
      not_false_iff, if_pos, Bool.not_eq_true]
    rw [div_self hlen]
    norm_num

theorem ngrams_length_ne_zero (t : List String) (n : Nat) (h : n ≤ t.length) :
    (ngrams t n).length ≠ 0 := by
  rw [ngrams, if_neg (not_lt.mpr h)]
  simp only [List.length_map, List.length_range]
  omega

theorem clippedNumerator_self (g : List (List String)) :
    clippedNumerator g g = g.length := by
  have hcount : ∀ x : List String,
      g.count x = @List.count (List String) instBEqOfDecidableEq x g := by
    intro x
    simp only [List.count]
    apply List.countP_congr
    intro b _
    by_cases h : b = x <;> simp [h]
  rw [clippedNumerator]
  simp only [min_self]
  calc (g.dedup.map fun x => g.count x).sum
      = (g.dedup.map fun x => @List.count (List String) instBEqOfDecidableEq x g).sum := by
        exact congrArg List.sum (List.map_congr_left (fun x _ => hcount x))
    _ = g.length := List.sum_map_count_dedup_eq_length g

/-- The modified `n`-gram precision of a candidate against itself is 1
whenever the candidate has at least `n` tokens. -/
theorem modifiedPrecision_self (t : List String) (n : Nat) (h : n ≤ t.length) :
    modifiedPrecision t t n = 1 := by
  have hne := ngrams_length_ne_zero t n h
  rw [modifiedPrecision, if_neg (not_lt.mpr h)]
  simp only [clippedNumerator_self]
  rw [if_neg hne]
  exact div_self (Nat.cast_ne_zero.mpr hne)

/-- On identical candidate and reference with at least `max_n` tokens, every
smoothed precision is exactly 1. -/
theorem bleuPrecisions_self (max_n : Nat) (smoothing : ℚ) (t : List String)
    (hlen : max_n ≤ t.length) :
    bleuPrecisions max_n smoothing t t = List.replicate max_n 1 := by
  rw [bleuPrecisions]
  apply List.eq_replicate_iff.mpr
  constructor
  · simp
  · intro b hb
    obtain ⟨i, hi, rfl⟩ := List.mem_map.mp hb
    have hin : i + 1 ≤ t.length :=
      le_trans (Nat.succ_le_of_lt (List.mem_range.mp hi)) hlen
    simp only [modifiedPrecision_self t (i + 1) hin]
    norm_num

/-- The per-example BLEU score of a candidate against an identical
reference is exactly 1 when the candidate has at least `max_n ≥ 1`
tokens (so that no precision is replaced by the smoothing constant). -/
theorem bleuScoreOfTokens_self (max_n : Nat) (smoothing : ℚ) (t : List String)
    (hm : 1 ≤ max_n) (hlen : max_n ≤ t.length) :
    bleuScoreOfTokens max_n smoothing t t = 1 := by
  have hlen0 : t.length ≠ 0 := by omega
  have hne : t ≠ [] := by
    intro h
    rw [h] at hlen0
    exact hlen0 rfl
  have hc : ¬t.isEmpty = true := by simpa [List.isEmpty_iff] using hne
  have hbp : brevityPenalty t.length t.length = 1 := by
    rw [brevityPenalty, if_neg hlen0,
      if_neg (by push_neg; exact ⟨hlen0, le_refl _⟩),
      div_self (Nat.cast_ne_zero.mpr hlen0)]
    norm_num
  have hmapcast : (List.replicate max_n (1 : ℚ)).map (fun (p : ℚ) => Real.log (p : ℝ)) =
      List.replicate max_n 0 := by
    rw [List.map_replicate]
    norm_num
  simp only [bleuScoreOfTokens]
  rw [if_neg hc, bleuPrecisions_self max_n smoothing t hlen, hbp, hmapcast,
    List.sum_replicate, smul_zero, zero_div, Real.exp_zero, mul_one]

/-! ## Claim C4 -/

/-- C4 counterexample: the claim as stated is false twice over.  On the
specification's own scenario — one example whose candidate `"the cat sat"`
is token-identical to its reference — BLEU (default `max_n = 4`,
`smoothing = 1e-9`) is **not** 1: the candidate has only 3 tokens, so the
4-gram precision is 0 and is replaced by the smoothing constant, dragging
the geometric mean below 1.  And on the empty pair (which satisfies the
claim's hypothesis vacuously) ROUGE-L returns 0, not 1. -/
theorem C4_counterexample_short_sentence :
    BleuMetric.value 4 (1 / 1000000000) [exCat] [respCat] ≠ 1 ∧
    RougeLMetric.value [] [] ≠ 1 := by
  constructor
  · have htok : tokenize (PyVal.pstr "the cat sat").toStr = ["the", "cat", "sat"] := by
      decide
    have hval : BleuMetric.value 4 (1 / 1000000000) [exCat] [respCat] =
        bleuScoreOfTokens 4 (1 / 1000000000) ["the", "cat", "sat"]
          ["the", "cat", "sat"] := by
      rw [BleuMetric.value, perExampleDict]
      norm_num [List.zip, List.zipWith, dictInsert, meanValue, bleuPerExample,
        htok, exCat, respCat]
    have hmp4 : modifiedPrecision ["the", "cat", "sat"] ["the", "cat", "sat"] 4 = 0 := by
      rw [modifiedPrecision, if_pos (by norm_num)]
    have hprec : bleuPrecisions 4 (1 / 1000000000) ["the", "cat", "sat"]
        ["the", "cat", "sat"] = [1, 1, 1, 1 / 1000000000] := by
      rw [bleuPrecisions, show List.range 4 = [0, 1, 2, 3] from by decide]
      simp only [List.map_cons, List.map_nil]
      norm_num [modifiedPrecision_self ["the", "cat", "sat"] 1 (by norm_num),
        modifiedPrecision_self ["the", "cat", "sat"] 2 (by norm_num),
        modifiedPrecision_self ["the", "cat", "sat"] 3 (by norm_num), hmp4]
    have hbp : brevityPenalty (3 : ℕ) (3 : ℕ) = 1 := by
      rw [brevityPenalty, if_neg (by norm_num),
        if_neg (by push_neg; exact ⟨by norm_num, le_refl _⟩)]
      norm_num
    rw [hval]
    simp only [bleuScoreOfTokens]
    rw [if_neg (by decide), hprec]
    have hlog : ([(1 : ℚ), 1, 1, 1 / 1000000000].map
        (fun (p : ℚ) => Real.log (p : ℝ))).sum =
        Real.log ((1 / 1000000000 : ℚ) : ℝ) := by
      simp [Real.log_one]
    rw [hlog]
    norm_num [hbp]
  · norm_num [RougeLMetric.value, perExampleDict, meanValue, List.zip,
      List.zipWith]

/-- C4 (amended): on every non-empty aligned pair in which each response
tokenizes to exactly its example's expected token sequence, ROUGE-L
returns exactly 1.0; BLEU additionally returns exactly 1.0 provided every
candidate has at least `max(1, max_n)` tokens (otherwise the missing
n-gram orders contribute the smoothing constant instead of 1, and the
value drops below 1; on the empty pair both metrics return 0.0). -/
theorem C4_identical_tokens_perfect_scores (max_n : Nat) (smoothing : ℚ)
    (examples : List Example) (responses : List ModelResponse)
    (hne : examples.zip responses ≠ [])
    (htok : ∀ p ∈ examples.zip responses,
      tokenize p.2.output.toStr = tokenize p.1.expected_output.toStr) :
    RougeLMetric.value examples responses = 1 ∧
    ((∀ p ∈ examples.zip responses,
        max 1 max_n ≤ (tokenize p.1.expected_output.toStr).length) →
      BleuMetric.value max_n smoothing examples responses = 1) := by
  constructor
  · apply meanValue_eq_one _ (perExampleDict_ne_nil _ hne)
    intro x hx
    exact forall_snd_perExampleFoldl (P := fun v => v = 1) rougePerExample
      (examples.zip responses) [] (by simp)
      (fun p hp => rougePerExample_eq_one p.1 p.2 (htok p hp)) x hx
  · intro hlen
    apply meanValue_eq_one _ (perExampleDict_ne_nil _ hne)
    intro x hx
    refine forall_snd_perExampleFoldl (P := fun v => v = 1)
      (bleuPerExample (max 1 max_n) smoothing)
      (examples.zip responses) [] (by simp) (fun p hp => ?_) x hx
    rw [bleuPerExample, htok p hp]
    exact bleuScoreOfTokens_self _ smoothing _ (le_max_left 1 max_n) (hlen p hp)

/-- Witness for C4: the identical three-token pair with `max_n = 3`
(so that no smoothing substitution occurs) scores 1 on both metrics. -/
theorem C4_identical_tokens_perfect_scores_witness :
    ([exCat].zip [respCat] ≠ []) ∧
    RougeLMetric.value [exCat] [respCat] = 1 ∧
    BleuMetric.value 3 (1 / 1000000000) [exCat] [respCat] = 1 :=
  ⟨by decide,
    (C4_identical_tokens_perfect_scores 3 (1 / 1000000000) [exCat] [respCat]
      (by decide) (by decide)).1,
    (C4_identical_tokens_perfect_scores 3 (1 / 1000000000) [exCat] [respCat]
      (by decide) (by decide)).2 (by decide)⟩

/-! ## Claim C5 -/

/-- After the smoothing substitution, every entry of the `precisions` list
is strictly positive (for a positive smoothing constant). -/
theorem bleuPrecisions_pos (max_n : Nat) (smoothing : ℚ)
    (candidate reference : List String) (hs : 0 < smoothing) :
    ∀ p ∈ bleuPrecisions max_n smoothing candidate reference, 0 < p := by
  intro p hp
  rw [bleuPrecisions] at hp
  obtain ⟨i, _, rfl⟩ := List.mem_map.mp hp
  by_cases h : modifiedPrecision candidate reference (i + 1) ≤ 0
  · simpa [h] using hs
  · simpa [h] using not_le.mp h

theorem log_list_prod : ∀ l : List ℝ, (∀ x ∈ l, x ≠ 0) →
    Real.log l.prod = (l.map Real.log).sum := by
  intro l
  induction l with
  | nil => intro _; simp
  | cons x xs ih =>
      intro h
      have hprod : xs.prod ≠ 0 := by
        apply List.prod_ne_zero
        intro h0
        exact (h 0 (List.mem_cons_of_mem x h0)) rfl
      rw [List.prod_cons, Real.log_mul (h x (List.mem_cons_self x xs)) hprod,
        List.map_cons, List.sum_cons,
        ih (fun y hy => h y (List.mem_cons_of_mem x hy))]

/-- For positive entries, the specification's geometric mean (the `n`-th
root of the product) equals the code's `exp` of the mean log. -/
theorem specGeoMean_eq_exp (ps : List ℚ) (hpos : ∀ p ∈ ps, (0 : ℚ) < p) :
    specGeoMean ps =
      Real.exp (((ps.map (fun (p : ℚ) => Real.log (p : ℝ))).sum) /
        (ps.length : ℝ)) := by
  have hpos' : ∀ x ∈ ps.map (fun (p : ℚ) => (p : ℝ)), (0 : ℝ) < x := by
    intro x hx
    obtain ⟨q, hq, rfl⟩ := List.mem_map.mp hx
    exact_mod_cast hpos q hq
  have hprodpos : (0 : ℝ) < (ps.map (fun (p : ℚ) => (p : ℝ))).prod :=
    List.prod_pos hpos'
  rw [specGeoMean, Real.rpow_def_of_pos hprodpos,
    log_list_prod _ (fun x hx => ne_of_gt (hpos' x hx)), List.map_map,
    div_eq_mul_inv]
  rfl

/-- The code's brevity penalty agrees with the specification's phrasing
(`1.0` when candidate length ≥ reference length or the reference length
is 0) on every non-empty candidate: at equality of lengths the code's
`exp(1 - ref/cand)` collapses to `exp 0 = 1`. -/
theorem brevityPenalty_eq_spec (c r : Nat) (hc : c ≠ 0) :
    brevityPenalty c r = specBrevityPenalty c r := by
  rw [brevityPenalty, specBrevityPenalty, if_neg hc]
  rcases lt_trichotomy c r with hlt | heq | hgt
  · have hr : r ≠ 0 := by omega
    rw [if_neg (by push_neg; exact ⟨hr, le_of_lt hlt⟩),
      if_neg (by push_neg; exact ⟨hlt, hr⟩)]
  · subst heq
    rw [if_neg (by push_neg; exact ⟨hc, le_refl c⟩),
      if_pos (Or.inl (le_refl c)),
      div_self (Nat.cast_ne_zero.mpr hc)]
    norm_num
  · rw [if_pos (Or.inr hgt), if_pos (Or.inl (le_of_lt hgt))]

/-- The per-example BLEU score on token lists equals the specification's
formula: 0 for an empty candidate, otherwise the geometric mean of the
smoothed precisions times the (≥-phrased) brevity penalty. -/
theorem bleuScoreOfTokens_eq_spec (max_n : Nat) (smoothing : ℚ)
    (candidate reference : List String) (hs : 0 < smoothing) :
    bleuScoreOfTokens max_n smoothing candidate reference =
      if candidate.isEmpty then 0
      else
        specGeoMean (bleuPrecisions max_n smoothing candidate reference) *
          specBrevityPenalty candidate.length reference.length := by
  by_cases hc : candidate.isEmpty = true
  · rw [bleuScoreOfTokens, if_pos hc, if_pos hc]
  · have hcne : candidate.length ≠ 0 := by
      intro h0
      exact hc (by simpa [List.isEmpty_iff, List.length_eq_zero] using h0)
    simp only [bleuScoreOfTokens]
    rw [if_neg hc, if_neg hc,
      specGeoMean_eq_exp _ (bleuPrecisions_pos max_n smoothing candidate reference hs),
      brevityPenalty_eq_spec _ _ hcne, mul_comm]

/-- C5: for every example in a BLEU computation with a positive smoothing
constant, the per-example score is 0 when the candidate token list is
empty, and otherwise equals the geometric mean of the `n`-gram precisions
(`n = 1..max_n`, each replaced by the smoothing constant when it is 0)
multiplied by the brevity penalty, which is 1.0 exactly when the candidate
length ≥ reference length or the reference length is 0, and
`exp(1 − reference_len/candidate_len)` otherwise; and each precision is 0
whenever the candidate has fewer than `n` tokens. -/
theorem C5_bleu_per_example_spec_formula (max_n : Nat) (smoothing : ℚ)
    (ex : Example) (response : ModelResponse) (hs : 0 < smoothing) :
    bleuPerExample max_n smoothing ex response =
      (if (tokenize response.output.toStr).isEmpty then 0
       else
         specGeoMean (bleuPrecisions max_n smoothing (tokenize response.output.toStr)
             (tokenize ex.expected_output.toStr)) *
           specBrevityPenalty (tokenize response.output.toStr).length
             (tokenize ex.expected_output.toStr).length) ∧
    (∀ n : Nat, (tokenize response.output.toStr).length < n →
      modifiedPrecision (tokenize response.output.toStr)
        (tokenize ex.expected_output.toStr) n = 0) :=
  ⟨bleuScoreOfTokens_eq_spec max_n smoothing _ _ hs,
    fun _ hn => by rw [modifiedPrecision, if_pos hn]⟩

/-- Witness for C5 at the concrete three-token pair and `max_n = 4`. -/
theorem C5_bleu_per_example_spec_formula_witness :
    (0 : ℚ) < 1 ∧
    modifiedPrecision (tokenize respCat.output.toStr)
      (tokenize exCat.expected_output.toStr) 4 = 0 :=
  ⟨zero_lt_one,
    (C5_bleu_per_example_spec_formula 4 1 exCat respCat zero_lt_one).2 4 (by decide)⟩

end EvalAgent
